import Mathlib

/-
  Verification development for the simple-analytics repository.

  The repository ships its design documents (DESIGN.md, ARCHITECTURE.md, spec)
  and a React dashboard frontend (src/frontend). The Django backend that the
  spec describes (SamplingEngine, RateLimiter, IngestGatekeeper, EventProcessor,
  AggregationEngine, RetentionSweeper) is not present in the source tree, so
  those components are modelled from the spec; the dashboard-side definitions
  are translated directly from the TypeScript sources.
-/

namespace SimpleAnalytics

/-! ## Sampling engine (spec section 4.1) -/

/-- Modelled from the spec: the three sampling strategies of section 4.1
(`strategy` in \x7brandom, deterministic, time-window\x7d). The backend
SamplingEngine source is not in the repository. -/
inductive SamplingStrategy where
  | random
  | deterministic
  | timeWindow
deriving DecidableEq

/-- Modelled from the spec: effective sampling configuration, fields
`enabled` (bool), `strategy`, `rate` in [0,1]. -/
structure SamplingConfig where
  enabled : Bool
  strategy : SamplingStrategy
  rate : ℚ
deriving DecidableEq

/-- Modelled from the spec: a stable, deterministic string hash to a 32-bit
range. The spec leaves the exact hash open (design note: any stable,
uniformly-distributed hash is acceptable), so a polynomial rolling hash is
used. -/
def strHash (s : String) : Nat :=
  s.data.foldl (fun a c => (a * 31 + c.toNat) % 4294967296) 7

/-- Modelled from the spec: map a string to a value in [0,1) via the stable
hash, as required by the deterministic and time-window strategies. -/
def hashUnit (s : String) : ℚ :=
  (strHash s : ℚ) / (4294967296 : ℚ)

/-- Modelled from the spec: the SamplingEngine decision (section 4.1).
If `enabled` is false, always accept. `random` compares a per-call uniform
draw with the rate; `deterministic` compares hash(user_id + tenant_id) with
the rate; `time-window` hashes a coarse time bucket (minute-of-hour). The
per-call inputs `randomDraw` and `minuteOfHour` model the call context
(randomness source and clock). -/
def samplingDecide (cfg : SamplingConfig) (tenantId userId : String)
    (randomDraw : ℚ) (minuteOfHour : Nat) : Bool :=
  if cfg.enabled = false then true
  else
    match cfg.strategy with
    | SamplingStrategy.random => decide (randomDraw < cfg.rate)
    | SamplingStrategy.deterministic => decide (hashUnit (userId ++ tenantId) < cfg.rate)
    | SamplingStrategy.timeWindow => decide (hashUnit (toString minuteOfHour) < cfg.rate)

/-! ## Raw events and aggregation (spec sections 3 and 4.5) -/

/-- Modelled from the spec: a stored RawEvent restricted to the fields the
aggregation and retention claims need; `ts` is the event timestamp in minutes
since the epoch. -/
structure RawEvent where
  tenantId : String
  sourceId : String
  eventName : String
  userId : String
  ts : Nat
deriving DecidableEq

/-- Modelled from the spec: whether a stored event belongs to the aggregate
key (tenant, source, event name). -/
def keyMatch (tenant source name : String) (e : RawEvent) : Bool :=
  decide (e.tenantId = tenant) && decide (e.sourceId = source) && decide (e.eventName = name)

/-- Modelled from the spec: the AggregationEngine event count for one bucket —
for a key (tenant, source, event name) and a bucket [bucketStart,
bucketStart + bucketLen), the number of stored events with that key whose
timestamp falls in the bucket (computed from raw events at every
granularity, per section 4.5). Bucket lengths are in minutes: 5, 60, 1440. -/
def aggEventCount (events : List RawEvent) (tenant source name : String)
    (bucketLen bucketStart : Nat) : Nat :=
  events.countP (fun e => keyMatch tenant source name e
    && decide (bucketStart ≤ e.ts) && decide (e.ts < bucketStart + bucketLen))

/-! ## Event processor store writes (spec section 4.4) -/

/-- Modelled from the spec: a stored row as written by the EventProcessor for
an event carrying a client-supplied idempotency id; the write key is
(tenant, idempotency id). -/
structure StoreRow where
  tenant : String
  idemId : String
  event : RawEvent
deriving DecidableEq

/-- Modelled from the spec: whether a stored row has the given
(tenant, idempotency id) key. -/
def rowKeyMatch (tenant idemId : String) (r : StoreRow) : Bool :=
  decide (r.tenant = tenant) && decide (r.idemId = idemId)

/-- Modelled from the spec: the store write is an upsert keyed on
(tenant, idempotency id) — replace the existing row(s) with that key if any,
otherwise append a new row. -/
def upsertRow (store : List StoreRow) (r : StoreRow) : List StoreRow :=
  if store.any (rowKeyMatch r.tenant r.idemId)
  then store.map (fun x => if rowKeyMatch r.tenant r.idemId x then r else x)
  else store ++ [r]

/-- Modelled from the spec: processing one delivered queue entry writes the
enriched event to the store via the idempotent upsert (section 4.4). -/
def processEvent (store : List StoreRow) (r : StoreRow) : List StoreRow :=
  upsertRow store r

/-! ## Rate limiter (spec section 4.2) -/

/-- Modelled from the spec: one sliding-window admission check. The state is
the list of admitted request timestamps (seconds); the check counts requests
still inside the 60-second window, admits iff the count is below the limit,
and records the admitted request. -/
def slidingWindowAllow (limit now : Nat) (stamps : List Nat) : Bool × List Nat :=
  let live := stamps.filter (fun t => decide (now < t + 60))
  if live.length < limit then (true, now :: live) else (false, live)

/-- Modelled from the spec: the RateLimiter `allow` call against the external
backing store. The store round-trip either errors (store unreachable) or
yields the window state; on error the limiter fails open and returns allow. -/
def rateLimiterAllow (limit now : Nat) (store : Except String (List Nat)) :
    Bool × Except String (List Nat) :=
  match store with
  | Except.error e => (true, Except.error e)
  | Except.ok st =>
      let r := slidingWindowAllow limit now st
      (r.1, Except.ok r.2)

/-- Modelled from the spec: run a sequence of admission checks at the given
request times against a healthy backing store, threading the window state. -/
def runLimiter (limit : Nat) (times : List Nat) (st : List Nat) : List Bool :=
  match times with
  | [] => []
  | t :: ts =>
      let r := slidingWindowAllow limit t st
      r.1 :: runLimiter limit ts r.2

/-! ## Ingest gatekeeper (spec section 4.3) -/

/-- Modelled from the spec: the terminal rejection categories of the
gatekeeper pipeline (section 7 taxonomy, restricted to admission). -/
inductive GateError where
  | authentication
  | validation
  | throttling
deriving DecidableEq

/-- Modelled from the spec: the inbound payload fields the validation step
inspects — event name, serialized property-bag size in bytes, and whether the
supplied timestamp parses. -/
structure IngestPayload where
  eventName : String
  eventSource : String
  userId : Option String
  propsSize : Nat
  timestampOk : Bool
deriving DecidableEq

/-- Modelled from the spec: payload validation — event name at most 255
characters, property bag at most 64KB serialized, well-formed timestamp. -/
def validPayload (p : IngestPayload) : Bool :=
  decide (p.eventName.length ≤ 255) && decide (p.propsSize ≤ 65536) && p.timestampOk

/-- Modelled from the spec: the IngestGatekeeper admission pipeline
(section 4.3): authentication, payload validation, rate limiting, sampling,
then enqueue. Returns the outcome (error, or ok with the `sampled` flag) and
the queue after the call; only an admitted event is appended to the queue. -/
def ingestGatekeeper (tenantKnown : Bool) (p : IngestPayload)
    (rateOk samplingAccept : Bool) (queue : List IngestPayload) :
    Except GateError Bool × List IngestPayload :=
  if tenantKnown = false then (Except.error GateError.authentication, queue)
  else if validPayload p = false then (Except.error GateError.validation, queue)
  else if rateOk = false then (Except.error GateError.throttling, queue)
  else if samplingAccept = false then (Except.ok true, queue)
  else (Except.ok false, queue ++ [p])

/-! ## Retention sweeper (spec section 4.6) -/

/-- Modelled from the spec: the RetentionSweeper pass over stored raw events
for one tenant — delete-by-age keeps exactly the events not older than
now minus retention_days (timestamps in minutes, so the cutoff is
now - retentionDays * 1440). -/
def retentionSweep (now retentionDays : Nat) (events : List RawEvent) : List RawEvent :=
  events.filter (fun e => !decide (e.ts < now - retentionDays * 1440))

/-! ## Dashboard frontend: event log pagination
    (src/frontend/src/components/EventLog.tsx, src/frontend/src/services/api.ts) -/

/-- The FilterParams interface of src/frontend/src/types: the only query
parameters the dashboard API client can send for the events query. There is
no page field. -/
structure FilterParams where
  startDate : Option String
  endDate : Option String
  eventName : Option String
  eventSourceId : Option Nat
  userId : Option String
deriving DecidableEq

/-- The wire request to the events query endpoint: the filter parameters plus
the pagination parameter, if one is sent. -/
structure EventsRequest where
  params : FilterParams
  page : Option Nat
deriving DecidableEq

/-- From EventLog.tsx loadEvents: the request is built by spreading the
filters only; the page-number argument is unused, and api.ts getEvents
forwards exactly the given params to the query endpoint, so no page
parameter is sent. -/
def loadEventsRequest (filters : FilterParams) (pageNum : Nat) : EventsRequest :=
  ⟨filters, none⟩

/-- From EventLog.tsx loadMoreEvents: the k-th load-more action increments the
page state to k+1 and issues loadEvents with that page number. -/
def loadMoreRequest (filters : FilterParams) (k : Nat) : EventsRequest :=
  loadEventsRequest filters (k + 1)

/-- A concrete start date for the event-log request fixture. -/
def sampleStartDate : String := "2023-01-01T00:00:00"

/-- A concrete end date for the event-log request fixture. -/
def sampleEndDate : String := "2023-01-02T00:00:00"

/-- Concrete filters for exercising the event-log request builder (the
dashboard's default 24-hour window). -/
def sampleFilters : FilterParams :=
  ⟨some sampleStartDate, some sampleEndDate, none, none, none⟩

/-! ## Dashboard frontend: time-series chart
    (src/frontend/src/components/TimeSeriesChart.tsx) -/

/-- A mapped chart data item from TimeSeriesChart.tsx loadChartData:
`timestamp` is the bucket time as epoch milliseconds (the getTime value used
by the sort comparator), with the event and distinct-user counts. -/
structure ChartPoint where
  timestamp : Int
  events : Nat
  users : Nat
deriving DecidableEq

/-- The sort comparator of loadChartData: ascending by timestamp. -/
def chartLe (a b : ChartPoint) : Bool :=
  decide (a.timestamp ≤ b.timestamp)

/-- From TimeSeriesChart.tsx loadChartData: sort the mapped results by
timestamp ascending (Array.prototype.sort is stable) and keep the last 50
entries (slice(-50)). -/
def loadChartData (results : List ChartPoint) : List ChartPoint :=
  let sorted := results.mergeSort chartLe
  sorted.drop (sorted.length - 50)

/-! ## Dashboard frontend: event type colors
    (src/frontend/src/components/EventLog.tsx getEventTypeColor) -/

/-- JavaScript ToInt32: reduce an integer to the signed 32-bit range, as the
bitwise operators in getEventTypeColor do. -/
def toInt32 (n : Int) : Int :=
  (n + 2147483648) % 4294967296 - 2147483648

/-- One step of the getEventTypeColor hash: a = ((a << 5) - a) + code, with
the shift coercing to int32 and the trailing (a & a) coercing the running
value back to int32. The intermediate double arithmetic is exact at these
magnitudes. -/
def jsHashStep (a : Int) (c : Nat) : Int :=
  toInt32 (toInt32 (a * 32) - a + c)

/-- The getEventTypeColor hash: fold the step over the UTF-16 code units of
the event name, starting from 0. -/
def jsHash (codeUnits : List Nat) : Int :=
  codeUnits.foldl jsHashStep 0

/-- The fixed six-entry color palette of getEventTypeColor. -/
def colors : List String :=
  ["text-green-400", "text-blue-400", "text-yellow-400",
   "text-purple-400", "text-pink-400", "text-cyan-400"]

/-- From EventLog.tsx getEventTypeColor: index the palette at
Math.abs(hash) % colors.length. Out-of-range indexing is modelled by a
default that the in-bounds proof shows is never taken. -/
def getEventTypeColor (codeUnits : List Nat) : String :=
  colors.getD ((jsHash codeUnits).natAbs % colors.length) ""

/-! ## Witness fixtures -/

/-- A concrete tenant id used by witnesses. -/
def wTenantId : String := "tenant-1"

/-- A concrete user id used by witnesses. -/
def wUserId : String := "user-1"

/-- Modelled from the spec: a deterministic sampling configuration at rate
one half, used by the sampling witness. -/
def wDetConfig : SamplingConfig :=
  ⟨true, SamplingStrategy.deterministic, 1 / 2⟩

/-- Modelled from the spec: a fixed enriched event used by concrete witnesses. -/
def wEvent : RawEvent :=
  ⟨"tenant-1", "web", "page_view", "user-1", 90000⟩

/-- Modelled from the spec: an old stored event (timestamp 90000 minutes),
outside a 1-day retention window at now = 100000. -/
def wOldEvent : RawEvent :=
  ⟨"tenant-1", "web", "page_view", "user-1", 90000⟩

/-- Modelled from the spec: a recent stored event (timestamp 99000 minutes),
inside a 1-day retention window at now = 100000. -/
def wNewEvent : RawEvent :=
  ⟨"tenant-1", "web", "click", "user-2", 99000⟩

/-- Modelled from the spec: a two-event store for the retention witness. -/
def wRetentionEvents : List RawEvent :=
  [wOldEvent, wNewEvent]

/-- Modelled from the spec: a store row carrying a client-supplied
idempotency id, used by the idempotency witness. -/
def wRow : StoreRow :=
  ⟨"tenant-1", "evt-42", wEvent⟩

/-- Modelled from the spec: an oversized payload (property bag of 70000 bytes
when serialized) used by the validation witness. -/
def wBigPayload : IngestPayload :=
  ⟨"click", "web", none, 70000, true⟩

/-! ## Claim theorems -/

/-- Claim C1: under the deterministic sampling strategy with a fixed rate, any
two admission checks for the same (tenant, user, rate) produce the same
accept/reject outcome, whatever the per-call randomness and clock inputs are. -/
theorem c1_deterministic_sampling_consistent (cfg : SamplingConfig)
    (tenantId userId : String)
    (h : cfg.strategy = SamplingStrategy.deterministic)
    (r₁ r₂ : ℚ) (b₁ b₂ : Nat) :
    samplingDecide cfg tenantId userId r₁ b₁ = samplingDecide cfg tenantId userId r₂ b₂ := by
  unfold samplingDecide
  cases hcfg : cfg.enabled <;> simp [h]

/-- Witness for C1: a concrete deterministic configuration and two calls with
different randomness and clock inputs agree. -/
theorem c1_witness :
    wDetConfig.strategy = SamplingStrategy.deterministic
    ∧ samplingDecide wDetConfig wTenantId wUserId 0 3
      = samplingDecide wDetConfig wTenantId wUserId (9 / 10) 44 :=
  ⟨rfl, c1_deterministic_sampling_consistent wDetConfig wTenantId wUserId rfl 0 (9 / 10) 3 44⟩

/-- A timestamp lies in the interval [start, start + m * n) iff it lies in
exactly one of the n subintervals of width m, so the indicator of the big
interval equals the sum of the subinterval indicators. -/
theorem indicator_bucket_split (m n start t : Nat) (hm : 0 < m) :
    (if start ≤ t ∧ t < start + m * n then (1 : ℕ) else 0)
      = ∑ i ∈ Finset.range n,
          (if start + m * i ≤ t ∧ t < start + m * i + m then (1 : ℕ) else 0) := by
  by_cases hin : start ≤ t ∧ t < start + m * n
  · obtain ⟨h1, h2⟩ := hin
    rw [if_pos ⟨h1, h2⟩]
    have hdm := Nat.div_add_mod (t - start) m
    have hr : (t - start) % m < m := Nat.mod_lt _ hm
    have hmem : (t - start) / m ∈ Finset.range n := by
      rw [Finset.mem_range]
      rw [Nat.div_lt_iff_lt_mul hm]
      rw [Nat.mul_comm]
      omega
    rw [Finset.sum_eq_single_of_mem _ hmem ?_]
    · rw [if_pos]
      constructor <;> omega
    · intro i hi hne
      rw [if_neg]
      rintro ⟨ha, hb⟩
      apply hne
      have hc1 : i * m = m * i := Nat.mul_comm i m
      have hc2 : (i + 1) * m = m * i + m := by ring
      have h1' : i * m ≤ t - start := by omega
      have h2' : t - start < (i + 1) * m := by omega
      exact (Nat.div_eq_of_lt_le h1' h2').symm
  · rw [if_neg hin]
    symm
    apply Finset.sum_eq_zero
    intro i hi
    rw [if_neg]
    rintro ⟨ha, hb⟩
    apply hin
    have hile : m * (i + 1) ≤ m * n :=
      Nat.mul_le_mul_left m (Finset.mem_range.mp hi)
    have hstep : m * (i + 1) = m * i + m := by ring
    constructor <;> omega

/-- Counting the events of a key inside an interval of width m * n equals the
sum, over the n subintervals of width m, of the counts inside each
subinterval. -/
theorem countP_bucket_split (P : RawEvent → Bool) (m n start : Nat) (hm : 0 < m)
    (es : List RawEvent) :
    es.countP (fun e => P e && decide (start ≤ e.ts) && decide (e.ts < start + m * n))
      = ∑ i ∈ Finset.range n,
          es.countP (fun e => P e && decide (start + m * i ≤ e.ts)
            && decide (e.ts < start + m * i + m)) := by
  induction es with
  | nil => simp
  | cons e es ih =>
    simp only [List.countP_cons]
    rw [Finset.sum_add_distrib, ← ih]
    congr 1
    by_cases hP : P e = true
    · simp only [hP, Bool.true_and, Bool.and_eq_true, decide_eq_true_eq]
      exact indicator_bucket_split m n start e.ts hm
    · have hP' : P e = false := by simpa using hP
      simp [hP']

/-- Claim C2: the reconciliation invariant between granularities — for every
key and day, the daily event count equals the sum of the 24 hourly counts
inside that day, and every hourly count equals the sum of its 12 five-minute
counts, so daily = Σ hourly = Σ Σ five-minute over the same interval. -/
theorem c2_reconciliation (es : List RawEvent) (tenant source name : String) (d : Nat) :
    aggEventCount es tenant source name 1440 (1440 * d)
        = ∑ h ∈ Finset.range 24,
            aggEventCount es tenant source name 60 (1440 * d + 60 * h)
    ∧ ∀ start : Nat,
        aggEventCount es tenant source name 60 start
          = ∑ j ∈ Finset.range 12,
              aggEventCount es tenant source name 5 (start + 5 * j) := by
  constructor
  · have hsplit := countP_bucket_split (keyMatch tenant source name) 60 24 (1440 * d)
      (by norm_num) es
    simpa [aggEventCount, show (60 : ℕ) * 24 = 1440 from by norm_num] using hsplit
  · intro start
    have hsplit := countP_bucket_split (keyMatch tenant source name) 5 12 start
      (by norm_num) es
    simpa [aggEventCount, show (5 : ℕ) * 12 = 60 from by norm_num] using hsplit

/-- Replacing every key-matching row by a row that itself matches the key
preserves the number of key-matching rows. -/
theorem countP_map_replace (k : StoreRow → Bool) (r : StoreRow) (hr : k r = true)
    (s : List StoreRow) :
    (s.map (fun x => if k x then r else x)).countP k = s.countP k := by
  induction s with
  | nil => rfl
  | cons x s ih =>
    cases hx : k x <;>
      simp [List.map_cons, List.countP_cons, hx, hr, ih]

/-- Claim C3: for an event carrying a client-supplied idempotency id,
processing it twice leaves exactly one stored row under its
(tenant, idempotency id) key, and the second processing does not change the
store at all — the upsert makes processing idempotent. -/
theorem c3_idempotent_processing (store : List StoreRow) (r : StoreRow)
    (h : store.countP (rowKeyMatch r.tenant r.idemId) ≤ 1) :
    (processEvent (processEvent store r) r).countP (rowKeyMatch r.tenant r.idemId) = 1
    ∧ processEvent (processEvent store r) r = processEvent store r := by
  have hkr : rowKeyMatch r.tenant r.idemId r = true := by
    simp [rowKeyMatch]
  by_cases hany : store.any (rowKeyMatch r.tenant r.idemId) = true
  · have hfirst : processEvent store r
        = store.map (fun x => if rowKeyMatch r.tenant r.idemId x then r else x) := by
      unfold processEvent upsertRow
      rw [if_pos hany]
    have hcount1 : (processEvent store r).countP (rowKeyMatch r.tenant r.idemId)
        = store.countP (rowKeyMatch r.tenant r.idemId) := by
      rw [hfirst]
      exact countP_map_replace _ r hkr store
    have hpos : 0 < store.countP (rowKeyMatch r.tenant r.idemId) := by
      rw [List.countP_pos]
      exact List.any_eq_true.mp hany
    have hany' : (processEvent store r).any (rowKeyMatch r.tenant r.idemId) = true := by
      rw [List.any_eq_true]
      rw [← List.countP_pos]
      rw [hcount1]
      exact hpos
    have hsecond : processEvent (processEvent store r) r = processEvent store r := by
      conv_lhs => rw [processEvent, upsertRow, if_pos hany']
      rw [hfirst, List.map_map]
      apply List.map_congr_left
      intro x _
      by_cases hx : rowKeyMatch r.tenant r.idemId x = true
      · simp [Function.comp, hx, hkr]
      · have hx' : rowKeyMatch r.tenant r.idemId x = false := by
          simpa using hx
        simp [Function.comp, hx']
    refine ⟨?_, hsecond⟩
    rw [hsecond, hcount1]
    omega
  · have hany' : store.any (rowKeyMatch r.tenant r.idemId) = false := by
      simpa using hany
    have hzero : store.countP (rowKeyMatch r.tenant r.idemId) = 0 := by
      rw [List.countP_eq_zero]
      intro a ha hka
      exact (List.any_eq_false.mp hany' a ha) hka
    have hfirst : processEvent store r = store ++ [r] := by
      unfold processEvent upsertRow
      rw [if_neg (by simp [hany'])]
    have hany2 : (store ++ [r]).any (rowKeyMatch r.tenant r.idemId) = true := by
      simp [List.any_append, hkr]
    have hmapid : store.map (fun x => if rowKeyMatch r.tenant r.idemId x then r else x)
        = store := by
      have : ∀ x ∈ store, (if rowKeyMatch r.tenant r.idemId x then r else x) = id x := by
        intro x hx
        have hkx : rowKeyMatch r.tenant r.idemId x = false := by
          simpa using List.any_eq_false.mp hany' x hx
        simp [hkx]
      rw [List.map_congr_left this, List.map_id]
    have hsecond : processEvent (processEvent store r) r = processEvent store r := by
      rw [hfirst]
      conv_lhs => rw [processEvent, upsertRow, if_pos hany2]
      rw [List.map_append, hmapid]
      simp [hkr]
    refine ⟨?_, hsecond⟩
    rw [hsecond, hfirst, List.countP_append, hzero]
    simp [hkr]

/-- Witness for C3: processing a concrete event with idempotency id evt-42
twice against an empty store leaves exactly one row with its key, and the
second processing is a no-op. -/
theorem c3_witness :
    ([] : List StoreRow).countP (rowKeyMatch wRow.tenant wRow.idemId) ≤ 1
    ∧ ((processEvent (processEvent [] wRow) wRow).countP
          (rowKeyMatch wRow.tenant wRow.idemId) = 1
        ∧ processEvent (processEvent [] wRow) wRow = processEvent [] wRow) :=
  ⟨by decide, c3_idempotent_processing [] wRow (by decide)⟩

/-- Claim C4: if the rate limiter's backing store is unreachable or returns an
error, allow returns true regardless of the key's window state, the request
time, and the configured limit — the limiter fails open. -/
theorem c4_fail_open (limit now : Nat) (e : String) :
    (rateLimiterAllow limit now (Except.error e)).1 = true := rfl

/-- When every recorded stamp and every request time lies inside one
60-second window, nothing ever expires from the limiter state, so the run
admits exactly the first limit - |state| requests and rejects the rest. -/
theorem runLimiter_all_in_window (limit t0 : Nat) :
    ∀ (times st : List Nat),
      (∀ t ∈ times, t0 ≤ t ∧ t < t0 + 60) →
      (∀ t ∈ st, t0 ≤ t ∧ t < t0 + 60) →
      runLimiter limit times st
        = List.replicate (min times.length (limit - st.length)) true
          ++ List.replicate (times.length - (limit - st.length)) false := by
  intro times
  induction times with
  | nil =>
    intro st _ _
    simp [runLimiter]
  | cons t ts ih =>
    intro st hts hst
    have ht : t0 ≤ t ∧ t < t0 + 60 := hts t (by simp)
    have hlive : st.filter (fun s => decide (t < s + 60)) = st := by
      apply List.filter_eq_self.mpr
      intro s hs
      have hsw := hst s hs
      simp only [decide_eq_true_eq]
      omega
    have hts' : ∀ u ∈ ts, t0 ≤ u ∧ u < t0 + 60 := by
      intro u hu
      exact hts u (by simp [hu])
    unfold runLimiter slidingWindowAllow
    simp only [hlive]
    by_cases hlt : st.length < limit
    · rw [if_pos hlt]
      simp only []
      rw [ih (t :: st) hts' ?_]
      · simp only [List.length_cons]
        rw [show limit - st.length = (limit - (st.length + 1)) + 1 from by omega,
          Nat.succ_min_succ, List.replicate_succ, List.cons_append, Nat.succ_sub_succ]
      · intro u hu
        rcases List.mem_cons.mp hu with hu | hu
        · exact hu ▸ ht
        · exact hst u hu
    · rw [if_neg hlt]
      simp only []
      rw [ih st hts' hst]
      rw [show limit - st.length = 0 from by omega]
      simp [List.replicate_succ]

/-- Claim C5: with requests arriving faster than the sliding window drains
(all inside one 60-second window), exactly limit admission checks succeed and
the (limit+1)-th check within the window returns false. -/
theorem c5_sliding_window_exact (limit t0 : Nat) (times : List Nat)
    (h1 : ∀ t ∈ times, t0 ≤ t ∧ t < t0 + 60)
    (h2 : times.length = limit + 1) :
    runLimiter limit times [] = List.replicate limit true ++ [false] := by
  rw [runLimiter_all_in_window limit t0 times [] h1 (by simp)]
  simp only [List.length_nil, Nat.sub_zero, h2]
  rw [show min (limit + 1) limit = limit from by omega,
    show limit + 1 - limit = 1 from by omega]
  rfl

/-- Witness for C5: with limit 2 and three requests at times 5, 10, 64 —
all within the 60-second window starting at 5 — the first two are admitted
and the third is rejected. -/
theorem c5_witness :
    ((∀ t ∈ ([5, 10, 64] : List Nat), 5 ≤ t ∧ t < 5 + 60)
      ∧ ([5, 10, 64] : List Nat).length = 2 + 1)
    ∧ runLimiter 2 [5, 10, 64] [] = List.replicate 2 true ++ [false] :=
  ⟨⟨by decide, rfl⟩, c5_sliding_window_exact 2 5 [5, 10, 64] (by decide) rfl⟩

/-- Claim C6: an inbound event whose name exceeds 255 characters, whose
property bag exceeds 64KB serialized, or whose timestamp is malformed is
rejected by the gatekeeper with a validation error, and the queue is left
unchanged — the event is never enqueued. -/
theorem c6_validation_rejects (p : IngestPayload) (rateOk samplingAccept : Bool)
    (queue : List IngestPayload)
    (h : 255 < p.eventName.length ∨ 65536 < p.propsSize ∨ p.timestampOk = false) :
    ingestGatekeeper true p rateOk samplingAccept queue
      = (Except.error GateError.validation, queue) := by
  have hv : validPayload p = false := by
    unfold validPayload
    rcases h with h | h | h
    · have hn : ¬ (p.eventName.length ≤ 255) := by omega
      simp [hn]
    · have hn : ¬ (p.propsSize ≤ 65536) := by omega
      simp [hn]
    · simp [h]
  unfold ingestGatekeeper
  simp [hv]

/-- Witness for C6: a payload with a 70000-byte property bag is rejected with
a validation error and nothing is enqueued. -/
theorem c6_witness :
    (255 < wBigPayload.eventName.length ∨ 65536 < wBigPayload.propsSize
      ∨ wBigPayload.timestampOk = false)
    ∧ ingestGatekeeper true wBigPayload true true []
        = (Except.error GateError.validation, []) :=
  ⟨Or.inr (Or.inl (by decide)),
    c6_validation_rejects wBigPayload true true [] (Or.inr (Or.inl (by decide)))⟩

/-- Claim C7: after a retention sweep at time now with the configured
retention, a stored event survives iff it is not older than the cutoff
now - retention, and the surviving list is a sublist of the original —
events inside the window are untouched and in their original order. -/
theorem c7_retention_sweep (now retentionDays : Nat) (events : List RawEvent)
    (e : RawEvent) (h : e ∈ events) :
    (e ∈ retentionSweep now retentionDays events
        ↔ now - retentionDays * 1440 ≤ e.ts)
    ∧ (retentionSweep now retentionDays events).Sublist events := by
  constructor
  · simp only [retentionSweep, List.mem_filter, h, true_and, Bool.not_eq_true',
      decide_eq_false_iff_not, Nat.not_lt]
  · exact List.filter_sublist _

/-- Witness for C7: with now = 100000 minutes and a 1-day retention, the old
event (timestamp 90000) is exactly the one the cutoff characterization says
it is, over a concrete two-event store. -/
theorem c7_witness :
    wOldEvent ∈ wRetentionEvents
    ∧ ((wOldEvent ∈ retentionSweep 100000 1 wRetentionEvents
          ↔ 100000 - 1 * 1440 ≤ wOldEvent.ts)
        ∧ (retentionSweep 100000 1 wRetentionEvents).Sublist wRetentionEvents) :=
  ⟨by decide, c7_retention_sweep 100000 1 wRetentionEvents wOldEvent (by decide)⟩

/-- Claim C8 (code bug evidence): in EventLog.tsx the load-more action for
page 2 issues a request identical to the initial page-1 request — the page
number passed to loadEvents is discarded and no pagination parameter is sent,
so the appended batch repeats the first page instead of selecting page 2. -/
theorem c8_load_more_repeats_first_page :
    loadMoreRequest sampleFilters 1 = loadEventsRequest sampleFilters 1
    ∧ (loadMoreRequest sampleFilters 1).page = none := by
  constructor <;> rfl

/-- Claim C9: the data the time-series chart renders is the sorted-by-
timestamp list of at most 50 aggregation entries, and every entry the
loadChartData pipeline drops has a timestamp at most that of every entry it
keeps — the chart shows the 50 latest entries in nondecreasing order. -/
theorem c9_chart_sorted_limited (results : List ChartPoint) :
    (loadChartData results).length = min 50 results.length
    ∧ (loadChartData results).Pairwise (fun a b => a.timestamp ≤ b.timestamp)
    ∧ ∃ dropped : List ChartPoint,
        (dropped ++ loadChartData results).Perm results
        ∧ ∀ a ∈ dropped, ∀ b ∈ loadChartData results, a.timestamp ≤ b.timestamp := by
  have htrans : ∀ a b c : ChartPoint,
      chartLe a b = true → chartLe b c = true → chartLe a c = true := by
    intro a b c hab hbc
    simp only [chartLe, decide_eq_true_eq] at hab hbc ⊢
    exact le_trans hab hbc
  have htotal : ∀ a b : ChartPoint, (chartLe a b || chartLe b a) = true := by
    intro a b
    simp only [chartLe, Bool.or_eq_true, decide_eq_true_eq]
    exact le_total a.timestamp b.timestamp
  have hperm : (results.mergeSort chartLe).Perm results :=
    List.mergeSort_perm results chartLe
  have hsorted : (results.mergeSort chartLe).Pairwise
      (fun a b => a.timestamp ≤ b.timestamp) := by
    refine List.Pairwise.imp ?_ (List.sorted_mergeSort htrans htotal results)
    intro a b hab
    simpa [chartLe] using hab
  have hout : loadChartData results
      = (results.mergeSort chartLe).drop ((results.mergeSort chartLe).length - 50) := rfl
  refine ⟨?_, ?_, ?_⟩
  · rw [hout, List.length_drop, hperm.length_eq]
    omega
  · rw [hout]
    exact List.Pairwise.sublist (List.drop_sublist _ _) hsorted
  · refine ⟨(results.mergeSort chartLe).take ((results.mergeSort chartLe).length - 50),
      ?_, ?_⟩
    · rw [hout, List.take_append_drop]
      exact hperm
    · rw [hout]
      have hsplit : (results.mergeSort chartLe).Pairwise
          (fun a b => a.timestamp ≤ b.timestamp) := hsorted
      rw [← List.take_append_drop ((results.mergeSort chartLe).length - 50)
        (results.mergeSort chartLe)] at hsplit
      exact (List.pairwise_append.mp hsplit).2.2

/-- Claim C10: for every event name (any list of UTF-16 code units, including
the empty one) the palette index Math.abs(hash) % colors.length is in bounds
and getEventTypeColor returns an element of the fixed six-entry palette. -/
theorem c10_color_total_in_palette (codeUnits : List Nat) :
    (jsHash codeUnits).natAbs % colors.length < colors.length
    ∧ getEventTypeColor codeUnits ∈ colors := by
  have hlen : colors.length = 6 := rfl
  have hlt : (jsHash codeUnits).natAbs % colors.length < colors.length := by
    rw [hlen]
    exact Nat.mod_lt _ (by norm_num)
  refine ⟨hlt, ?_⟩
  unfold getEventTypeColor
  rw [List.getD_eq_getElem _ _ hlt]
  exact List.getElem_mem _

end SimpleAnalytics
